import Mathlib

/-!
Verification development for the SSESIS repository (files `MAS.py` and
`MultiAgentSystem.py`).  We give a shallow embedding of the two orchestration
pipelines (`process_pipeline` in each file) together with the string and JSON
utilities they rely on, and prove the behavioural properties stated in the
specification.  The inference gateway (the loaded llama model) is modelled as
an explicit function parameter returning `Option` results, mirroring the fact
that `CoreEngine.inference` returns `None` when no model is loaded.
-/

namespace SSESIS

/-! ## Python-style string primitives

These model the Python string operations used by the source:
`in` (substring test), `str.replace`, `str.strip`, `str.upper`, `str.lower`,
slicing with negative indices, `str.find` / `str.rfind`.
All are structurally recursive so that concrete runs evaluate in the kernel.
-/

/-- Left bracket-brace character. -/
def lbraceC : Char := Char.ofNat 123

/-- Right bracket-brace character. -/
def rbraceC : Char := Char.ofNat 125

/-- `listIsPre p l` : `p` is a prefix of `l` (on characters). -/
def listIsPre : List Char → List Char → Bool
  | [], _ => true
  | _ :: _, [] => false
  | a :: as, b :: bs => a == b && listIsPre as bs

/-- Helper for the substring test: does `pat` occur in `l`? -/
def containsAux (pat : List Char) : List Char → Bool
  | [] => listIsPre pat []
  | c :: rest => listIsPre pat (c :: rest) || containsAux pat rest

/-- Models the Python expression `pat in s`. -/
def strContains (s pat : String) : Bool := containsAux pat.data s.data

/-- Fuel-indexed helper for `pyReplace` (fuel is the input length, each step
consumes at least one character). -/
def replaceAux (pat rep : List Char) : Nat → List Char → List Char
  | 0, l => l
  | f + 1, l =>
    match l with
    | [] => []
    | c :: rest =>
      if listIsPre pat l then rep ++ replaceAux pat rep f (l.drop pat.length)
      else c :: replaceAux pat rep f rest

/-- Models Python `s.replace(pat, rep)` (left-to-right, non-overlapping).
All call sites in the source use non-empty patterns. -/
def pyReplace (s pat rep : String) : String :=
  String.mk (replaceAux pat.data rep.data s.data.length s.data)

/-- Python whitespace characters stripped by `str.strip()`. -/
def isPyWs (c : Char) : Bool :=
  c == ' ' || c == '\t' || c == '\n' || c == '\r' || c == Char.ofNat 11 || c == Char.ofNat 12

/-- Models Python `s.strip()`. -/
def pyStrip (s : String) : String :=
  String.mk (((s.data.dropWhile isPyWs).reverse.dropWhile isPyWs).reverse)

/-- Models Python `s.upper()` (ASCII behaviour, which is all the source uses). -/
def pyUpper (s : String) : String := String.mk (s.data.map Char.toUpper)

/-- Models Python `s.lower()`. -/
def pyLower (s : String) : String := String.mk (s.data.map Char.toLower)

/-- Python slice `l[i:j]` on a character list, with negative-index clamping. -/
def pySliceList (l : List Char) (i j : Int) : List Char :=
  let n : Int := Int.ofNat l.length
  let i' : Int := if i < 0 then max (n + i) 0 else min i n
  let j' : Int := if j < 0 then max (n + j) 0 else min j n
  (l.take j'.toNat).drop i'.toNat

/-- Python slice `s[i:j]`. -/
def pySlice (s : String) (i j : Int) : String := String.mk (pySliceList s.data i j)

/-- Models Python `s.find(c)`: index of the first occurrence or `-1`. -/
def strFind (s : String) (c : Char) : Int :=
  match s.data.findIdx? (· == c) with
  | some i => Int.ofNat i
  | none => -1

/-- Models Python `s.rfind(c)`: index of the last occurrence or `-1`. -/
def strRFind (s : String) (c : Char) : Int :=
  match s.data.reverse.findIdx? (· == c) with
  | some k => Int.ofNat (s.data.length - 1 - k)
  | none => -1

/-- The last `n` elements of a list (`l[-n:]` for positive `n`). -/
def lastN (n : Nat) (l : List α) : List α := l.drop (l.length - n)

/-- The last `n` characters of a string. -/
def strTakeRight (s : String) (n : Nat) : String := String.mk (lastN n s.data)

/-- Concatenate a list of strings with a separator (Python `sep.join`). -/
def strJoinSep (sep : String) : List String → String
  | [] => ""
  | [s] => s
  | s :: rest => s ++ sep ++ strJoinSep sep rest

/-- Concatenate a list of strings. -/
def strConcat : List String → String
  | [] => ""
  | s :: rest => s ++ strConcat rest

/-- `">>"` repeated `n` times, as in the WHIS depth marker `'>>' * depth`. -/
def repeatStr (s : String) : Nat → String
  | 0 => ""
  | n + 1 => s ++ repeatStr s n

/-! ## A model of `json.loads`

The source feeds model output through `json.loads` twice: on a `{...}` span
(feature selection) and on a `[...]` span (sub-task splitting).  We model the
JSON values and a recursive-descent parser (fuel-indexed, fuel bounded by the
input length plus two, which is sufficient since every recursive call consumes
at least one character or one list element). -/

inductive JValue where
  | jnull : JValue
  | jbool (b : Bool) : JValue
  | jnum (q : Rat) : JValue
  | jstr (s : String) : JValue
  | jarr (xs : List JValue) : JValue
  | jobj (kvs : List (String × JValue)) : JValue

/-- Is this JSON value a string? (`isinstance(x, str)`) -/
def JValue.isStr : JValue → Bool
  | .jstr _ => true
  | _ => false

/-- Skip JSON whitespace. -/
def jskipWs : List Char → List Char
  | [] => []
  | c :: rest =>
    if c == ' ' || c == '\t' || c == '\n' || c == '\r' then jskipWs rest else c :: rest

/-- Hex digit value. -/
def jparseHex (c : Char) : Option Nat :=
  if c.isDigit then some (c.toNat - 48)
  else if 'a' ≤ c && c ≤ 'f' then some (c.toNat - 87)
  else if 'A' ≤ c && c ≤ 'F' then some (c.toNat - 55)
  else none

/-- Parse the body of a JSON string literal (opening quote already consumed);
returns the content and the remaining input. -/
def jparseStrAux : Nat → List Char → Option (List Char × List Char)
  | 0, _ => none
  | _, [] => none
  | f + 1, c :: rest =>
    if c == '"' then some ([], rest)
    else if c == '\\' then
      match rest with
      | [] => none
      | e :: rest2 =>
        if e == '"' then (jparseStrAux f rest2).map (fun p => ('"' :: p.1, p.2))
        else if e == '\\' then (jparseStrAux f rest2).map (fun p => ('\\' :: p.1, p.2))
        else if e == '/' then (jparseStrAux f rest2).map (fun p => ('/' :: p.1, p.2))
        else if e == 'n' then (jparseStrAux f rest2).map (fun p => ('\n' :: p.1, p.2))
        else if e == 't' then (jparseStrAux f rest2).map (fun p => ('\t' :: p.1, p.2))
        else if e == 'r' then (jparseStrAux f rest2).map (fun p => ('\r' :: p.1, p.2))
        else if e == 'b' then (jparseStrAux f rest2).map (fun p => (Char.ofNat 8 :: p.1, p.2))
        else if e == 'f' then (jparseStrAux f rest2).map (fun p => (Char.ofNat 12 :: p.1, p.2))
        else if e == 'u' then
          match rest2 with
          | h1 :: h2 :: h3 :: h4 :: rest3 =>
            match jparseHex h1, jparseHex h2, jparseHex h3, jparseHex h4 with
            | some a, some b, some c2, some d =>
              (jparseStrAux f rest3).map
                (fun p => (Char.ofNat (((a * 16 + b) * 16 + c2) * 16 + d) :: p.1, p.2))
            | _, _, _, _ => none
          | _ => none
        else none
    else (jparseStrAux f rest).map (fun p => (c :: p.1, p.2))

/-- Take a maximal run of decimal digits. -/
def jtakeDigits : List Char → (List Nat × List Char)
  | [] => ([], [])
  | c :: rest =>
    if c.isDigit then
      let p := jtakeDigits rest
      ((c.toNat - 48) :: p.1, p.2)
    else ([], c :: rest)

/-- Digits to a natural number. -/
def jdigitsVal (ds : List Nat) : Nat := ds.foldl (fun a d => a * 10 + d) 0

/-- Parse a JSON number. -/
def jparseNum (l : List Char) : Option (Rat × List Char) :=
  let p0 : Bool × List Char :=
    match l with
    | c :: rest => if c == '-' then (true, rest) else (false, l)
    | [] => (false, [])
  let neg := p0.1
  let p1 := jtakeDigits p0.2
  if p1.1.isEmpty then none
  else
    let intPart : Rat := (jdigitsVal p1.1 : Nat)
    let fracRes : Option (Rat × List Char) :=
      match p1.2 with
      | c :: rest =>
        if c == '.' then
          let p2 := jtakeDigits rest
          if p2.1.isEmpty then none
          else some (intPart + (jdigitsVal p2.1 : Rat) / ((10 : Rat) ^ p2.1.length), p2.2)
        else some (intPart, p1.2)
      | [] => some (intPart, [])
    match fracRes with
    | none => none
    | some (v1, l2) =>
      let expRes : Option (Rat × List Char) :=
        match l2 with
        | c :: rest =>
          if c == 'e' || c == 'E' then
            let p3 : Bool × List Char :=
              match rest with
              | c2 :: rest2 =>
                if c2 == '-' then (true, rest2)
                else if c2 == '+' then (false, rest2)
                else (false, rest)
              | [] => (false, [])
            let p4 := jtakeDigits p3.2
            if p4.1.isEmpty then none
            else
              let e := jdigitsVal p4.1
              if p3.1 then some (v1 / ((10 : Rat) ^ e), p4.2)
              else some (v1 * ((10 : Rat) ^ e), p4.2)
          else some (v1, l2)
        | [] => some (v1, [])
      match expRes with
      | none => none
      | some (v2, l3) => some ((if neg then -v2 else v2), l3)

mutual

/-- Parse one JSON value (fuel-indexed). -/
def jparseVal : Nat → List Char → Option (JValue × List Char)
  | 0, _ => none
  | f + 1, l =>
    match jskipWs l with
    | [] => none
    | c :: rest =>
      if c == '"' then
        (jparseStrAux (rest.length + 1) rest).map (fun p => (.jstr (String.mk p.1), p.2))
      else if c == lbraceC then
        match jskipWs rest with
        | c2 :: r2 =>
          if c2 == rbraceC then some (.jobj [], r2)
          else jparseObjRest f (c2 :: r2) []
        | [] => none
      else if c == '[' then
        match jskipWs rest with
        | ']' :: r2 => some (.jarr [], r2)
        | l2 => jparseArrRest f l2 []
      else if c == 't' then
        match rest with
        | 'r' :: 'u' :: 'e' :: r => some (.jbool true, r)
        | _ => none
      else if c == 'f' then
        match rest with
        | 'a' :: 'l' :: 's' :: 'e' :: r => some (.jbool false, r)
        | _ => none
      else if c == 'n' then
        match rest with
        | 'u' :: 'l' :: 'l' :: r => some (.jnull, r)
        | _ => none
      else
        (jparseNum (c :: rest)).map (fun p => (.jnum p.1, p.2))

/-- Parse the elements of a non-empty JSON array (after `[`). -/
def jparseArrRest : Nat → List Char → List JValue → Option (JValue × List Char)
  | 0, _, _ => none
  | f + 1, l, acc =>
    match jparseVal f l with
    | none => none
    | some (v, r) =>
      match jskipWs r with
      | ',' :: r2 => jparseArrRest f r2 (acc ++ [v])
      | ']' :: r2 => some (.jarr (acc ++ [v]), r2)
      | _ => none

/-- Parse the members of a non-empty JSON object (after the opening brace). -/
def jparseObjRest : Nat → List Char → List (String × JValue) → Option (JValue × List Char)
  | 0, _, _ => none
  | f + 1, l, acc =>
    match jskipWs l with
    | c :: r =>
      if c == '"' then
        match jparseStrAux (r.length + 1) r with
        | none => none
        | some (ks, r2) =>
          match jskipWs r2 with
          | ':' :: r3 =>
            match jparseVal f r3 with
            | none => none
            | some (v, r4) =>
              match jskipWs r4 with
              | ',' :: r5 => jparseObjRest f r5 (acc ++ [(String.mk ks, v)])
              | c6 :: r6 =>
                if c6 == rbraceC then some (.jobj (acc ++ [(String.mk ks, v)]), r6) else none
              | [] => none
          | _ => none
      else none
    | [] => none

end

/-- Models Python `json.loads`: parse a full JSON document, requiring that
nothing but whitespace remains. -/
def jsonLoads (s : String) : Option JValue :=
  match jparseVal (s.data.length + 2) s.data with
  | none => none
  | some (v, rest) => if (jskipWs rest).isEmpty then some v else none

/-- Python truthiness of a JSON-decoded value (`if v:`). -/
def jtruthy : JValue → Bool
  | .jnull => false
  | .jbool b => b
  | .jnum q => if q = 0 then false else true
  | .jstr s => !(s == "")
  | .jarr xs => !xs.isEmpty
  | .jobj kvs => !kvs.isEmpty

/-- Python `dict.get` over a key/value list built by the JSON parser
(last occurrence of a key wins, as in `dict` construction). -/
def dictGet (kvs : List (String × JValue)) (k : String) : Option JValue :=
  match kvs.reverse.find? (fun kv => kv.1 == k) with
  | some kv => some kv.2
  | none => none

/-- `feats.get(k)` followed by Python truthiness. -/
def featsGet (kvs : List (String × JValue)) (k : String) : Bool :=
  match dictGet kvs k with
  | some v => jtruthy v
  | none => false

/-- A rough model of Python `str(x)` for JSON-decoded values; only the string
case is ever exercised by well-formed model output (sub-task lists of strings),
the other cases exist so that the malformed-array corner of the split step can
be stated faithfully. -/
def jvalPyStr : JValue → String
  | .jstr s => s
  | .jbool true => "True"
  | .jbool false => "False"
  | .jnull => "None"
  | .jnum q => toString q.num
  | .jarr _ => "[...]"
  | .jobj _ => "(obj)"

/-! ## Data model

Sessions and turns as kept by `CoreEngine.sessions`, the event records produced
by the local `msg` helpers of both `process_pipeline` functions (we model the
event as a record rather than its JSON wire encoding), and the task nodes of
the WHIS work stack. -/

structure Turn where
  role : String
  content : String
deriving DecidableEq

structure Session where
  id : String
  title : String
  history : List Turn
  created : Rat
deriving DecidableEq

/-- The session store: `CoreEngine.sessions`, a keyed collection. -/
abbrev Store := List (String × Session)

/-- `CoreEngine.get_session` (`self.sessions.get(uid)`: the value at the key,
keys being unique). -/
def lookupSession : Store → String → Option Session
  | [], _ => none
  | kv :: rest, uid => if kv.1 == uid then some kv.2 else lookupSession rest uid

/-- Append turns to the history of the session with the given id (the in-place
`sess['history'].append(...)` mutations at the end of a run). -/
def appendTurns (store : Store) (uid : String) (ts : List Turn) : Store :=
  store.map (fun kv =>
    if kv.1 == uid then (kv.1, { kv.2 with history := kv.2.history ++ ts }) else kv)

inductive EType where
  | status | log | card | token | done
deriving DecidableEq

structure Event where
  type : EType
  content : String
  target : Option String
deriving DecidableEq

/-- The `msg(t, c, tgt)` helper of both pipelines. -/
def msg (t : EType) (c : String) (tgt : Option String) : Event := ⟨t, c, tgt⟩

inductive NodeKind where
  | MAIN | SUB | RESUME
deriving DecidableEq

/-- A WHIS work-stack entry `{"depth": d, "task": t, "type": k}`. -/
structure TaskNode where
  depth : Nat
  task : String
  kind : NodeKind
deriving DecidableEq

/-! ## The pipeline mode (`MAS.py`)

`CoreEngine.inference` wraps the prompt in a fixed chat template and calls the
model; it returns `None` when no model is loaded.  We model the model by two
functions (non-streaming and streaming completion), each taking the full
prompt, the temperature, `max_tokens` and the stop sequences and returning an
optional result; `none` models the no-model case. -/

structure MasGateway where
  complete : String → Rat → Nat → List String → Option String
  completeStream : String → Rat → Nat → List String → Option (List String)

/-- `CoreEngine.inference` of `MAS.py` (non-streaming): template the prompt and
query the model with stop sequences defaulting to `["<|user|>"]`. -/
def masInference (g : MasGateway) (prompt : String) (temp : Rat) (maxTokens : Nat)
    (stop : List String) : Option String :=
  g.complete ("<|system|>\nSystem\n<|user|>\n" ++ prompt ++ "\n<|assistant|>\n")
    temp maxTokens stop

/-- `CoreEngine.inference` of `MAS.py` with `stream=True`: the result is the
sequence of chunk texts. -/
def masInferenceStream (g : MasGateway) (prompt : String) (temp : Rat) (maxTokens : Nat)
    (stop : List String) : Option (List String) :=
  g.completeStream ("<|system|>\nSystem\n<|user|>\n" ++ prompt ++ "\n<|assistant|>\n")
    temp maxTokens stop

/-- The request settings consumed by the pipeline mode
(`settings.get('auto_mode')`, `settings.get('temp', 0.7)`,
`settings.get('manual_protocols', {})`). -/
structure MasSettings where
  auto_mode : Bool
  temp : Option Rat
  manual_protocols : List (String × JValue)

/-- The fallback flag set assigned when auto-selection JSON fails to parse. -/
def masDefaultFeats : List (String × JValue) :=
  [("facts", .jbool true), ("plan", .jbool true), ("simulation", .jbool true)]

/-- The dynamic protocol-selection prompt built from the request text. -/
def masSelectorPrompt (prompt : String) : String :=
  "Task: " ++ prompt ++ "\n" ++
  "Identify required protocols. Output JSON boolean.\n" ++
  "Keys: facts, deep, topology, plan, debate, simulation, audit.\n" ++
  "Example: \x7b\"facts\": true, \"deep\": false\x7d\n" ++
  "JSON:"

/-- The auto-mode feature-selection block of `process_pipeline` (`MAS.py`,
lines 92-111): returns the resulting `feats` dict and the emitted events.
When the classification call returns `None` the `if res:` guard skips the
whole block and `feats` keeps the caller-supplied manual protocols; when the
extracted `{...}` span fails to parse (or is not an object, in which case
`j.items()` raises inside the `try`), `feats` becomes the fixed default set. -/
def masSelectFeats (g : MasGateway) (prompt : String) (settings : MasSettings) :
    List (String × JValue) × List Event :=
  if settings.auto_mode then
    let ev0 := [msg .status "Dynamic Protocol Selection..." none]
    match masInference g (masSelectorPrompt prompt) (1/10) 4096 ["<|user|>"] with
    | none => (settings.manual_protocols, ev0)
    | some txt =>
      let span := pySlice txt (strFind txt lbraceC) (strRFind txt rbraceC + 1)
      match jsonLoads span with
      | some (.jobj kvs) =>
        (kvs, ev0 ++ [msg .log ("Auto-Selected: " ++
          strJoinSep ", " ((kvs.filter (fun kv => jtruthy kv.2)).map (fun kv => kv.1))) none])
      | some _ => (masDefaultFeats, ev0)
      | none => (masDefaultFeats, ev0)
  else (settings.manual_protocols, [])

/-- The conversation-history context string (`MAS.py`, lines 113-116). -/
def masHistoryTxt (hist : List Turn) : String :=
  strConcat ((lastN 4 hist).map (fun m =>
    (if m.role == "user" then "User" else "Assistant") ++ ": " ++ m.content ++ "\n"))

/-- Facts-extraction stage (gated by `facts`); returns `cfs` and its events. -/
def masFactsStage (g : MasGateway) (feats : List (String × JValue)) (prompt : String) :
    String × List Event :=
  if featsGet feats "facts" then
    let ev0 := [msg .status "0.0 Parmenides (Facts)" none]
    match masInference g ("Extract Axioms & Constraints:\n" ++ prompt) (1/10) 4096 ["<|user|>"] with
    | some t => (pyStrip t, ev0 ++ [msg .card (pyStrip t) (some "Facts")])
    | none => ("", ev0)
  else ("", [])

/-- Deep-analysis stage (gated by `deep`). -/
def masDeepStage (g : MasGateway) (feats : List (String × JValue)) (prompt cfs : String) :
    List Event :=
  if featsGet feats "deep" then
    let ev0 := [msg .status "14.0 Noesis (Deep Analysis)" none]
    match masInference g ("Deep Analysis:\n" ++ prompt ++ "\nContext: " ++ cfs) (6/10) 4096
        ["<|user|>"] with
    | some t => ev0 ++ [msg .card (pyStrip t) (some "Analysis")]
    | none => ev0
  else []

/-- Topology stage (gated by `topology`). -/
def masTopoStage (g : MasGateway) (feats : List (String × JValue)) (prompt : String) :
    List Event :=
  if featsGet feats "topology" then
    let ev0 := [msg .status "16.0 Utias (Topology)" none]
    match masInference g ("Dependency Mapping:\n" ++ prompt) (2/10) 4096 ["<|user|>"] with
    | some t => ev0 ++ [msg .card (pyStrip t) (some "Topology")]
    | none => ev0
  else []

/-- Blueprint stage (always runs); returns `feb` and its events. -/
def masBlueprintStage (g : MasGateway) (prompt cfs : String) : String × List Event :=
  let ev0 := [msg .status "0-Phase Prometheus (Blueprint)" none]
  match masInference g ("Execution Blueprint:\n" ++ prompt ++ "\nFacts: " ++ cfs) (3/10) 4096
      ["<|user|>"] with
  | some t => (pyStrip t, ev0 ++ [msg .card (pyStrip t) (some "Blueprint")])
  | none => ("", ev0)

/-- Debate stage (gated by `debate`).  The two plan-generation calls subscript
the inference result without a `None` check
(`ENGINE.inference(...)['choices'][0]['text']`, `MAS.py` lines 151 and 153),
so a null gateway result raises `TypeError` out of the generator: modelled by
returning `none` for the final plan (run aborted).  The verdict call is
`None`-checked. -/
def masDebateStage (g : MasGateway) (feats : List (String × JValue)) (feb : String) :
    List Event × Option String :=
  if featsGet feats "debate" then
    let ev0 := [msg .status "5.0 Agon (Multi-Agent)" none, msg .log "Strategos Alpha..." none]
    match masInference g ("Safe Plan:\n" ++ feb) (2/10) 4096 ["<|user|>"] with
    | none => (ev0, none)
    | some p1 =>
      let ev1 := ev0 ++ [msg .log "Strategos Beta..." none]
      match masInference g ("Risky Plan:\n" ++ feb) (8/10) 4096 ["<|user|>"] with
      | none => (ev1, none)
      | some p2 =>
        let ev2 := ev1 ++ [msg .log "Dikastes Verdict..." none]
        match masInference g ("Select Best:\nA: " ++ p1 ++ "\nB: " ++ p2) (1/10) 4096
            ["<|user|>"] with
        | some v => (ev2 ++ [msg .card (pyStrip v) (some "Verdict")], some (pyStrip v))
        | none => (ev2, some feb)
  else ([], some feb)

/-- Execution stage (always runs, streaming); returns `full_resp` and events. -/
def masExecStage (g : MasGateway) (prompt final_plan history_txt : String) (temp : Rat) :
    String × List Event :=
  let ev0 := [msg .status "19.0 Hephaestus (Execution)" none]
  match masInferenceStream g
      ("Task: " ++ prompt ++ "\nPlan: " ++ final_plan ++ "\nHistory: " ++ history_txt ++
        "\nExecute.") temp 4096 ["<|user|>"] with
  | none => ("", ev0)
  | some chunks => (strConcat chunks, ev0 ++ chunks.map (fun t => msg .token t none))

/-- Simulation-and-repair stage (gated by `simulation` and a code fence in the
response); returns the possibly-extended `full_resp` and events. -/
def masSimStage (g : MasGateway) (feats : List (String × JValue)) (full_resp : String) :
    String × List Event :=
  if featsGet feats "simulation" && strContains full_resp "```" then
    let ev0 := [msg .status "26.0 Basanos (Simulation)" none]
    match masInference g ("Simulate code execution. Output Logs:\n" ++ full_resp) (1/10) 4096
        ["<|user|>"] with
    | none => (full_resp, ev0)
    | some r =>
      let logs := pyStrip r
      let ev1 := ev0 ++ [msg .card logs (some "Sim Logs")]
      if strContains logs "Error" || strContains logs "Traceback" then
        let ev2 := ev1 ++ [msg .status "4.5 Anakainosis (Repair)" none]
        match masInference g ("Fix code using logs:\nCode: " ++ full_resp ++ "\nLogs: " ++ logs)
            (1/10) 4096 ["<|user|>"] with
        | some f =>
          (full_resp ++ "\n\n### Auto-Repair\n" ++ pyStrip f,
            ev2 ++ [msg .token ("\n\n### Auto-Repair\n" ++ pyStrip f) none])
        | none => (full_resp, ev2)
      else (full_resp, ev1)
  else (full_resp, [])

/-- Audit stage (gated by `audit`). -/
def masAuditStage (g : MasGateway) (feats : List (String × JValue)) (full_resp : String) :
    List Event :=
  if featsGet feats "audit" then
    let ev0 := [msg .status "29.0 Praetorian (Audit)" none]
    match masInference g ("Security Audit:\n" ++ full_resp) (1/10) 4096 ["<|user|>"] with
    | some t => ev0 ++ [msg .card (pyStrip t) (some "Audit")]
    | none => ev0
  else []

/-- The result of a pipeline-mode run: the emitted events, the session store
after the run, and whether the generator aborted with an uncaught exception
(in which case the events already yielded were streamed but no `done` follows
and the history is not updated). -/
structure MasResult where
  events : List Event
  store : Store
  aborted : Bool
deriving DecidableEq

/-- `process_pipeline` of `MAS.py` (lines 83-197), composed from the stage
functions above in source order. -/
def masPipeline (g : MasGateway) (store : Store) (prompt sessionId : String)
    (settings : MasSettings) : MasResult :=
  match lookupSession store sessionId with
  | none => ⟨[], store, false⟩
  | some sess =>
    let selRes := masSelectFeats g prompt settings
    let feats := selRes.1
    let history_txt := masHistoryTxt sess.history
    let evA := msg .status "Initializing SSESIS v1.0..." none :: selRes.2 ++
      [msg .status "Apollo Integrity Check" none]
    let factsRes := masFactsStage g feats prompt
    let cfs := factsRes.1
    let evDeep := masDeepStage g feats prompt cfs
    let evTopo := masTopoStage g feats prompt
    let bpRes := masBlueprintStage g prompt cfs
    let feb := bpRes.1
    let debRes := masDebateStage g feats feb
    let evB := evA ++ factsRes.2 ++ evDeep ++ evTopo ++ bpRes.2 ++ debRes.1
    match debRes.2 with
    | none => ⟨evB, store, true⟩
    | some final_plan =>
      let execRes := masExecStage g prompt final_plan history_txt
        (settings.temp.getD (7/10))
      let simRes := masSimStage g feats execRes.1
      let full_resp := simRes.1
      let evAudit := masAuditStage g feats full_resp
      let evC := evB ++ execRes.2 ++ simRes.2 ++ evAudit ++
        [msg .status "10.0 Kerberos (Final Gateway)" none]
      ⟨evC ++ [msg .done "Ready" none],
        appendTurns store sessionId [⟨"user", prompt⟩, ⟨"assistant", full_resp⟩], false⟩

/-! ## The decomposition mode (`MultiAgentSystem.py`)

`CoreEngine.inference` here uses an instruction template and default stop
sequences `["###", "User:", "\n\n"]`.  The leaf-execution block bypasses
`inference` and calls `ENGINE.model.create_completion(..., stream=True)`
directly, so when no model is loaded it raises `AttributeError` (uncaught);
when the stream itself raises mid-iteration the exception is caught and an
inline error token is emitted.  We model the direct streaming call by
`modelStream`, returning `none` for the no-model case and otherwise the chunk
texts together with an optional mid-stream error message. -/

structure WhisGateway where
  complete : String → Rat → Nat → List String → Option String
  modelStream : String → Nat → Rat → List String → Option (List String × Option String)

/-- `CoreEngine.inference` of `MultiAgentSystem.py`. -/
def whisInference (g : WhisGateway) (prompt : String) (temp : Rat) (maxTokens : Nat)
    (stop : List String) : Option String :=
  g.complete ("### Instruction:\n" ++ prompt ++ "\n\n### Response:\n") temp maxTokens stop

/-- The `clean_resp` helper (`MultiAgentSystem.py`, lines 90-96). -/
def clean_resp (text : Option String) : String :=
  match text with
  | none => ""
  | some t =>
    if t == "" then ""
    else
      let t1 := pyReplace (pyReplace (pyReplace t "`" "") "\x27" "") "\x22" ""
      let t2 := pyReplace t1 "SYSTEM:" ""
      let t3 := pyReplace t2 "GLOBAL CONTEXT:" ""
      let t4 := pyReplace t3 "Instruction:" ""
      let t5 := pyReplace t4 "Context:" ""
      let t6 := pyReplace t5 "Response:" ""
      pyStrip t6

/-- The `prune_context` helper (`MultiAgentSystem.py`, lines 98-100):
`"...(truncated)\n" + ctx[-(limit):]` when the context exceeds the limit. -/
def prune_context (ctx : String) (limit : Nat) : String :=
  if ctx.length > limit then
    "...(truncated)\n" ++ pySlice ctx (-(Int.ofNat limit)) (Int.ofNat ctx.length)
  else ctx

/-- `MAX_DEPTH` (`MultiAgentSystem.py`, line 111). -/
def MAX_DEPTH : Nat := 3

/-- The depth marker `f"[{'>>' * depth}] D{depth}"`. -/
def whisTag (depth : Nat) : String :=
  "[" ++ repeatStr ">>" depth ++ "] D" ++ toString depth

/-- The WHI-analysis section of the loop body (`MultiAgentSystem.py`, lines
125-164): classification, goal (`W`) and plan (`H`) extraction, and the
single-step decision (`I`).  Returns `(val_w, val_h, val_i, events)`. -/
def whisWHI (g : WhisGateway) (depth : Nat) (task ctx : String) :
    String × String × String × List Event :=
  let pre := whisTag depth
  let ev0 := [msg .status (pre ++ " WHI Analysis...") none]
  let res_router := whisInference g
    ("Input: " ++ task ++ "\nQuestion: Is this a complex task requiring a plan? Answer YES or NO.")
    (1/10) 10 ["\n"]
  let is_complex :=
    match res_router with
    | some t => strContains (pyUpper t) "YES"
    | none => true
  if !is_complex then
    ("Chat with user", "Reply naturally", "YES",
      ev0 ++ [msg .card "W: Chat with user" (some (pre ++ " WHI")),
        msg .card "H: Reply naturally" (some (pre ++ " WHI")),
        msg .card "I: YES" (some (pre ++ " WHI"))])
  else
    let res_w := whisInference g
      ("Input: " ++ task ++ "\nContext: " ++ prune_context ctx 4000 ++
        "\nTask: Identify the specific goal.") (1/10) 64 ["\n\n", "###"]
    let vw0 := clean_resp res_w
    let val_w :=
      if vw0 == "" || strContains (pyLower vw0) "sorry" || strContains (pyLower vw0) "understand"
      then "Execute task" else vw0
    let res_h := whisInference g
      ("Input: " ++ task ++ "\nGoal: " ++ val_w ++ "\nTask: List brief steps to achieve this.")
      (1/10) 128 ["\n\n", "###"]
    let vh0 := clean_resp res_h
    let val_h := if vh0 == "" then "Execute immediately" else vh0
    let val_i :=
      if depth < MAX_DEPTH then
        match whisInference g
            ("Steps: " ++ val_h ++ "\nQuestion: Is this a single step task? YES or NO.")
            (1/10) 10 ["###", "User:", "\n\n"] with
        | some t => if strContains (pyUpper t) "NO" then "NO" else "YES"
        | none => "YES"
      else "YES"
    (val_w, val_h, val_i,
      ev0 ++ [msg .card ("W: " ++ val_w) (some (pre ++ " WHI")),
        msg .card ("H: " ++ val_h) (some (pre ++ " WHI")),
        msg .card ("I: " ++ val_i) (some (pre ++ " WHI"))])

/-- What the split block falls through to: `cont` models the `continue` after
a successful split, `leaf` models falling into the `val_i == "YES"` execution
block after a caught exception set `val_i = "YES"`, and `drop` models the case
where the bracket regex finds no match: no exception is raised, `val_i` stays
`"NO"`, and the node is neither split nor executed. -/
inductive SplitNext where
  | cont | leaf | drop
deriving DecidableEq

/-- The first `[...]` span of a string, as found by
`re.search(r'\[.*\]', txt, re.DOTALL)`: greedy, so it runs from the first `[`
to the last `]`, and matches exactly when the last `]` lies after the
first `[`. -/
def bracketSpan (s : String) : Option String :=
  match s.data.findIdx? (· == '['), s.data.reverse.findIdx? (· == ']') with
  | some i, some k =>
    let j := s.data.length - 1 - k
    if i < j then some (String.mk ((s.data.take (j + 1)).drop i)) else none
  | _, _ => none

/-- The split block (`MultiAgentSystem.py`, lines 166-183), entered when
`val_i == "NO"`.  Returns the emitted events, the nodes pushed onto the stack
(top of stack first), and what the control flow does next.  The `try` catches
the `TypeError` from subscripting a `None` result and any `json.loads`
failure; a successful `json.loads` of a `[...]` span is always a list, but if
some element is not a string the pushes have already happened when
`"\n".join(sub_tasks)` raises, so the node is additionally executed as a
leaf with the pushes retained. -/
def whisSplitPrompt (val_w val_h : String) : String :=
  "Goal: " ++ val_w ++ "\nSteps: " ++ val_h ++
    "\nTask: Return a JSON list of sub-tasks. Example: [\"Step1\", \"Step2\"]"

def whisSplitStep (g : WhisGateway) (depth : Nat) (task val_w val_h : String) :
    List Event × List TaskNode × SplitNext :=
  let pre := whisTag depth
  let ev0 := [msg .status (pre ++ " Status: COMPLEX. Splitting...") none]
  match whisInference g (whisSplitPrompt val_w val_h) (1/10) 2048 ["###", "User:", "\n\n"] with
  | none => (ev0, [], .leaf)
  | some txt =>
    match bracketSpan txt with
    | none => (ev0, [], .drop)
    | some span =>
      match jsonLoads span with
      | none => (ev0, [], .leaf)
      | some (.jarr xs) =>
        let pushes := xs.map (fun x => (⟨depth + 1, jvalPyStr x, .SUB⟩ : TaskNode)) ++
          [⟨depth, task, .RESUME⟩]
        if xs.all JValue.isStr then
          (ev0 ++ [msg .card (strJoinSep "\n" (xs.map jvalPyStr)) (some (pre ++ " Split Plan"))],
            pushes, .cont)
        else (ev0, pushes, .leaf)
      | some _ => (ev0, [(⟨depth, task, .RESUME⟩ : TaskNode)], .leaf)

/-- The `prompt_exec` string of the leaf-execution block (`MultiAgentSystem.py`,
line 188): note it embeds the *pruned copy* of the running context. -/
def whisExecPrompt (ctx task val_w val_h : String) : String :=
  "Context: " ++ prune_context ctx 4000 ++ "\nRequest: " ++ task ++
    "\nGoal: " ++ val_w ++ "\nPlan: " ++ val_h ++ "\n\nTask: Write the response now."

/-- The leaf-execution block (`MultiAgentSystem.py`, lines 185-208): a direct
streaming completion on the model.  `none` from `modelStream` models the
`AttributeError` raised when no model is loaded (uncaught, aborting the run);
a mid-stream error is caught and surfaced as an inline `[Error: ...]` token;
afterwards the transcript fragment is appended to the running context. -/
def whisLeafExec (g : WhisGateway) (depth : Nat) (ctx task val_w val_h : String) :
    List Event × String × Bool :=
  let pre := whisTag depth
  let ev0 := [msg .status (pre ++ " Status: CLEAR. Executing...") none]
  match g.modelStream ("### Instruction:\n" ++ whisExecPrompt ctx task val_w val_h ++
      "\n\n### Response:\n") 2048 (7/10) ["###"] with
  | none => (ev0, ctx, true)
  | some (chunks, err) =>
    let toks := chunks.map (fun t => msg .token t none)
    let errEvs :=
      match err with
      | some e => [msg .token ("\n[Error: " ++ e ++ "]") none]
      | none => []
    (ev0 ++ toks ++ errEvs,
      ctx ++ "\nUser: " ++ task ++ "\nAI: " ++ strConcat chunks ++ "\n", false)

/-- One iteration of the WHIS work-stack loop (`MultiAgentSystem.py`, lines
114-208) for a popped item: returns the emitted events, the updated running
context, the nodes pushed (top of stack first), and whether the run aborted. -/
def whisProcessItem (g : WhisGateway) (item : TaskNode) (ctx : String) :
    List Event × String × List TaskNode × Bool :=
  let pre := whisTag item.depth
  match item.kind with
  | .RESUME =>
    ([msg .status (pre ++ " Context Aggregation...") none,
      msg .card ("Sub-tasks completed for: " ++ item.task) (some (pre ++ " Context"))],
      ctx, [], false)
  | _ =>
    let whi := whisWHI g item.depth item.task ctx
    let val_w := whi.1
    let val_h := whi.2.1
    let val_i := whi.2.2.1
    let evs := whi.2.2.2
    if val_i == "NO" then
      let sp := whisSplitStep g item.depth item.task val_w val_h
      match sp.2.2 with
      | .cont => (evs ++ sp.1, ctx, sp.2.1, false)
      | .drop => (evs ++ sp.1, ctx, sp.2.1, false)
      | .leaf =>
        let lf := whisLeafExec g item.depth ctx item.task val_w val_h
        (evs ++ sp.1 ++ lf.1, lf.2.1, sp.2.1, lf.2.2)
    else
      let lf := whisLeafExec g item.depth ctx item.task val_w val_h
      (evs ++ lf.1, lf.2.1, [], lf.2.2)

/-- The `while task_stack:` loop, fuel-indexed (the source loop terminates
because splitting only happens below `MAX_DEPTH`; `none` means the given fuel
was not enough to finish).  Returns the emitted events, the final running
context and the aborted flag. -/
def whisRun (g : WhisGateway) : Nat → List TaskNode → String →
    Option (List Event × String × Bool)
  | 0, _, _ => none
  | _ + 1, [], ctx => some ([], ctx, false)
  | f + 1, item :: rest, ctx =>
    let s := whisProcessItem g item ctx
    if s.2.2.2 then some (s.1, s.2.1, true)
    else
      match whisRun g f (s.2.2.1 ++ rest) s.2.1 with
      | none => none
      | some r => some (s.1 ++ r.1, r.2.1, r.2.2)

/-- The prior-chat-history context (`MultiAgentSystem.py`, lines 104-108). -/
def whisHistoryCtx (hist : List Turn) : String :=
  if hist.isEmpty then ""
  else
    "Prior Chat History:\n" ++ strConcat ((lastN 6 hist).map (fun m =>
      (if m.role == "user" then "User" else "AI") ++ ": " ++ m.content ++ "\n"))

/-- The result of a decomposition-mode run. -/
structure WhisResult where
  events : List Event
  store : Store
  aborted : Bool
deriving DecidableEq

/-- `process_pipeline` of `MultiAgentSystem.py` (lines 83-211): initial status
event, work-stack loop seeded with the MAIN node, and finalization appending
only the user turn before the `done` event. -/
def whisPipeline (g : WhisGateway) (fuel : Nat) (store : Store)
    (prompt sessionId : String) : Option WhisResult :=
  match lookupSession store sessionId with
  | none => some ⟨[], store, false⟩
  | some sess =>
    let ev0 := msg .status "Initializing WHIS-ReAct Protocol..." none
    match whisRun g fuel [⟨1, prompt, .MAIN⟩] (whisHistoryCtx sess.history) with
    | none => none
    | some (evs, _, true) => some ⟨ev0 :: evs, store, true⟩
    | some (evs, _, false) =>
      some ⟨ev0 :: evs ++ [msg .done "Ready" none],
        appendTurns store sessionId [⟨"user", prompt⟩], false⟩

/-! ## Specification predicates -/

/-- Is this a `done` event? -/
def isDone (e : Event) : Bool := e.type == EType.done

/-- A `card` event must carry a target (other events trivially satisfy this). -/
def cardOk (e : Event) : Bool := !(e.type == EType.card) || e.target.isSome

/-- An event admissible strictly before the end of the stream. -/
def evOk (e : Event) : Bool := !(isDone e) && cardOk e

/-- Every event of the segment is a non-`done` event with well-formed target. -/
def segOk (l : List Event) : Bool := l.all evOk

/-- Event-stream well-formedness: at most one `done` event, any `done` event is
last, and every `card` event has a non-null target. -/
def wfStream (l : List Event) : Bool :=
  Nat.ble (l.filter isDone).length 1 &&
  l.dropLast.all (fun e => !(isDone e)) &&
  l.all cardOk

/-- `RunSeq g ns ctx evs ctxF ab` : processing the nodes of `ns` one complete
subtree at a time, in list order and threading the running context, emits
exactly `evs` and ends in context `ctxF` with aborted flag `ab` (an abort cuts
the sequence short).  This is the specification-level description of how the
work stack serialises sibling subtrees. -/
inductive RunSeq (g : WhisGateway) : List TaskNode → String → List Event → String → Bool → Prop
  | nil (ctx : String) : RunSeq g [] ctx [] ctx false
  | consAbort (n : TaskNode) (ns : List TaskNode) (ctx : String) (f : Nat)
      (evs : List Event) (ctx1 : String)
      (h : whisRun g f [n] ctx = some (evs, ctx1, true)) :
      RunSeq g (n :: ns) ctx evs ctx1 true
  | cons (n : TaskNode) (ns : List TaskNode) (ctx : String) (f : Nat)
      (evs1 : List Event) (ctx1 : String) (evs2 : List Event) (ctx2 : String) (ab : Bool)
      (h : whisRun g f [n] ctx = some (evs1, ctx1, false))
      (htail : RunSeq g ns ctx1 evs2 ctx2 ab) :
      RunSeq g (n :: ns) ctx (evs1 ++ evs2) ctx2 ab

/-- The two events emitted when a RESUME node for `task` at depth `k` is
popped. -/
def resumeEvs (k : Nat) (task : String) : List Event :=
  [msg .status (whisTag k ++ " Context Aggregation...") none,
    msg .card ("Sub-tasks completed for: " ++ task) (some (whisTag k ++ " Context"))]

/-! ## Concrete fixtures used by witnesses and counterexamples -/

/-- A gateway with no model loaded: every completion returns `None`. -/
def gMasNull : MasGateway := ⟨fun _ _ _ _ => none, fun _ _ _ _ => none⟩

/-- A decomposition-mode gateway with no model loaded. -/
def gWhisNull : WhisGateway := ⟨fun _ _ _ _ => none, fun _ _ _ _ => none⟩

/-- A gateway whose `inference` wrapper returns `None` but whose direct
streaming call yields one chunk `"4"` (used to exhibit a completed
decomposition run). -/
def gWhisStream1 : WhisGateway := ⟨fun _ _ _ _ => none, fun _ _ _ _ => some (["4"], none)⟩

/-- A deterministic mock gateway that classifies the task as complex and
multi-step but answers the split request with the unparseable text
`"not json"`. -/
def gSplitNoJson : WhisGateway :=
  ⟨fun p _ _ _ =>
    if strContains p "single step task" then some "NO"
    else if strContains p "JSON list of sub-tasks" then some "not json"
    else if strContains p "specific goal" then some "Gt"
    else if strContains p "brief steps" then some "St"
    else some "YES",
  fun _ _ _ _ => some ([], none)⟩

/-- A deterministic mock gateway that splits the root task into the sub-tasks
`["a", "b"]` and treats every other node as a single-step leaf. -/
def gSplitAB : WhisGateway :=
  ⟨fun p _ _ _ =>
    if strContains p "single step task" then
      (if strContains p "Steps: S root" then some "NO" else some "YES")
    else if strContains p "JSON list of sub-tasks" then some "[\"a\", \"b\"]"
    else if strContains p "specific goal" then
      (if strContains p "Input: root" then some "G root" else some "G kid")
    else if strContains p "brief steps" then
      (if strContains p "Goal: G root" then some "S root" else some "S kid")
    else some "YES",
  fun _ _ _ _ => some (["ok"], none)⟩

/-- A two-session store with an empty-history target session `s1`. -/
def store0 : Store :=
  [("s1", ⟨"s1", "New Operation", [], 0⟩), ("s2", ⟨"s2", "Other", [⟨"user", "x"⟩], 1⟩)]

/-- Auto-mode settings with empty manual protocols (what the UI sends when the
manual switches are all off). -/
def stAuto : MasSettings := ⟨true, none, []⟩

/-- Manual-mode settings with only the debate protocol enabled. -/
def stManualDebate : MasSettings := ⟨false, none, [("debate", .jbool true)]⟩

/-- Manual-mode settings with no protocol enabled. -/
def stManualPlain : MasSettings := ⟨false, none, []⟩

/-- A 4001-character running context, one character over the pruning limit. -/
def bigCtx : String := String.mk (List.replicate 4001 'a')

/-! ## Helper lemmas: event segments -/

theorem segOk_append {a b : List Event} : segOk (a ++ b) = (segOk a && segOk b) := by
  simp [segOk, List.all_append]

theorem segOk_cons {e : Event} {l : List Event} : segOk (e :: l) = (evOk e && segOk l) := by
  simp [segOk]

theorem segOk_nil : segOk [] = true := rfl

theorem wfStream_of_segOk {l : List Event} (h : segOk l = true) : wfStream l = true := by
  have hall : ∀ e ∈ l, evOk e = true := by
    simpa [segOk, List.all_eq_true] using h
  have hnd : ∀ e ∈ l, isDone e = false := by
    intro e he
    have := hall e he
    simp [evOk, Bool.and_eq_true] at this
    simpa using this.1
  have hco : ∀ e ∈ l, cardOk e = true := by
    intro e he
    have := hall e he
    simp [evOk, Bool.and_eq_true] at this
    exact this.2
  have hfilter : l.filter isDone = [] := by
    refine List.filter_eq_nil_iff.mpr ?_
    intro e he
    simp [hnd e he]
  unfold wfStream
  simp only [Bool.and_eq_true]
  refine ⟨⟨?_, ?_⟩, ?_⟩
  · simp [hfilter]
  · refine List.all_eq_true.mpr ?_
    intro e he
    have := hnd e (List.dropLast_sublist l |>.subset he)
    simp [this]
  · exact List.all_eq_true.mpr hco

theorem wfStream_append_done {l : List Event} (c : String) (h : segOk l = true) :
    wfStream (l ++ [msg .done c none]) = true := by
  have hall : ∀ e ∈ l, evOk e = true := by
    simpa [segOk, List.all_eq_true] using h
  have hnd : ∀ e ∈ l, isDone e = false := by
    intro e he
    have := hall e he
    simp [evOk, Bool.and_eq_true] at this
    simpa using this.1
  have hco : ∀ e ∈ l, cardOk e = true := by
    intro e he
    have := hall e he
    simp [evOk, Bool.and_eq_true] at this
    exact this.2
  have hfilter : l.filter isDone = [] := by
    refine List.filter_eq_nil_iff.mpr ?_
    intro e he
    simp [hnd e he]
  unfold wfStream
  simp only [Bool.and_eq_true]
  refine ⟨⟨?_, ?_⟩, ?_⟩
  · simp [List.filter_append, hfilter, isDone, msg]
  · rw [List.dropLast_concat]
    refine List.all_eq_true.mpr ?_
    intro e he
    simp [hnd e he]
  · refine List.all_eq_true.mpr ?_
    intro e he
    rcases List.mem_append.mp he with h1 | h1
    · exact hco e h1
    · simp at h1
      simp [h1, cardOk, msg]

/-! ## Helper lemmas: the WHIS work-stack loop -/

theorem whisRun_nil_inv {g : WhisGateway} {f : Nat} {ctx : String}
    {r : List Event × String × Bool} (h : whisRun g f [] ctx = some r) :
    r = ([], ctx, false) := by
  cases f with
  | zero => simp [whisRun] at h
  | succ f => simpa [whisRun] using h.symm

theorem whisRun_mono {g : WhisGateway} :
    ∀ {f f' : Nat} {s : List TaskNode} {ctx : String} {r : List Event × String × Bool},
      whisRun g f s ctx = some r → f ≤ f' → whisRun g f' s ctx = some r := by
  intro f
  induction f with
  | zero => intro f' s ctx r h; simp [whisRun] at h
  | succ f ih =>
    intro f' s ctx r h hle
    obtain ⟨f'', rfl⟩ : ∃ f'', f' = f'' + 1 := ⟨f' - 1, by omega⟩
    have hle' : f ≤ f'' := by omega
    cases s with
    | nil => simpa [whisRun] using h
    | cons item rest =>
      rw [whisRun] at h ⊢
      by_cases hab : (whisProcessItem g item ctx).2.2.2 = true
      · simpa [hab] using h
      · simp only [hab, Bool.false_eq_true, if_false] at h ⊢
        rcases hrec : whisRun g f ((whisProcessItem g item ctx).2.2.1 ++ rest)
            (whisProcessItem g item ctx).2.1 with _ | r2
        · rw [hrec] at h; exact absurd h (by simp)
        · rw [hrec] at h
          rw [ih hrec hle']
          exact h

theorem whisRun_append {g : WhisGateway} {s2 : List TaskNode} :
    ∀ {f : Nat} {s1 : List TaskNode} {ctx : String} {evs : List Event} {ctxF : String}
      {ab : Bool},
      whisRun g f (s1 ++ s2) ctx = some (evs, ctxF, ab) →
      ∃ f1 evs1 ctx1 ab1, whisRun g f1 s1 ctx = some (evs1, ctx1, ab1) ∧
        ((ab1 = true ∧ ab = true ∧ evs = evs1 ∧ ctxF = ctx1) ∨
         (ab1 = false ∧ ∃ f2 evs2, whisRun g f2 s2 ctx1 = some (evs2, ctxF, ab) ∧
            evs = evs1 ++ evs2)) := by
  intro f
  induction f with
  | zero => intro s1 ctx evs ctxF ab h; simp [whisRun] at h
  | succ f ih =>
    intro s1 ctx evs ctxF ab h
    cases s1 with
    | nil =>
      refine ⟨1, [], ctx, false, by simp [whisRun], Or.inr ⟨rfl, f + 1, evs, ?_, by simp⟩⟩
      simpa using h
    | cons item rest =>
      rw [List.cons_append, whisRun] at h
      by_cases hab : (whisProcessItem g item ctx).2.2.2 = true
      · simp only [hab, if_true, Option.some.injEq, Prod.mk.injEq] at h
        obtain ⟨hevs, hctxF, hab2⟩ := h
        refine ⟨f + 1, (whisProcessItem g item ctx).1, (whisProcessItem g item ctx).2.1, true,
          ?_, Or.inl ⟨rfl, hab2.symm, hevs.symm, hctxF.symm⟩⟩
        rw [whisRun]; simp [hab]
      · simp only [hab, Bool.false_eq_true, if_false] at h
        rcases hrec : whisRun g f ((whisProcessItem g item ctx).2.2.1 ++ (rest ++ s2))
            (whisProcessItem g item ctx).2.1 with _ | r2
        · rw [hrec] at h; exact absurd h (by simp)
        · rw [hrec] at h
          obtain ⟨evsN, ctxN, abN⟩ := r2
          simp only [Option.some.injEq, Prod.mk.injEq] at h
          obtain ⟨hevs, hctxF, hab2⟩ := h
          rw [← List.append_assoc] at hrec
          obtain ⟨f1', evs1', ctx1, ab1, h1, hcase⟩ := ih hrec
          refine ⟨f1' + 1, (whisProcessItem g item ctx).1 ++ evs1', ctx1, ab1, ?_, ?_⟩
          · rw [whisRun]
            simp only [hab, Bool.false_eq_true, if_false]
            rw [h1]
          · rcases hcase with ⟨hab1, habN, hevsN, hctx⟩ | ⟨hab1, f2, evs2, h2, hevsN⟩
            · exact Or.inl ⟨hab1, by rw [← hab2, habN], by rw [← hevs, hevsN],
                by rw [← hctxF, hctx]⟩
            · refine Or.inr ⟨hab1, f2, evs2, ?_, ?_⟩
              · rw [h2, hctxF, hab2]
              · rw [← hevs, hevsN, List.append_assoc]

theorem whisRun_runSeq {g : WhisGateway} :
    ∀ {ns : List TaskNode} {f : Nat} {ctx : String} {evs : List Event} {ctxF : String}
      {ab : Bool}, whisRun g f ns ctx = some (evs, ctxF, ab) → RunSeq g ns ctx evs ctxF ab := by
  intro ns
  induction ns with
  | nil =>
    intro f ctx evs ctxF ab h
    have h0 := whisRun_nil_inv h
    simp only [Prod.mk.injEq] at h0
    obtain ⟨rfl, rfl, rfl⟩ := h0
    exact RunSeq.nil _
  | cons n rest ih =>
    intro f ctx evs ctxF ab h
    rw [show n :: rest = [n] ++ rest from rfl] at h
    obtain ⟨f1, evs1, ctx1, ab1, h1, hcase⟩ := whisRun_append h
    rcases hcase with ⟨hab1, hab, hevs, hctx⟩ | ⟨hab1, f2, evs2, h2, hevs⟩
    · rw [hab, hevs, hctx]
      exact RunSeq.consAbort n rest ctx f1 evs1 ctx1 (hab1 ▸ h1)
    · rw [hevs]
      exact RunSeq.cons n rest ctx f1 evs1 ctx1 evs2 ctxF ab (hab1 ▸ h1) (ih h2)

/-! ## Helper lemmas: event segments emitted by the stages -/

theorem segOk_masSelectFeats (g : MasGateway) (prompt : String) (settings : MasSettings) :
    segOk (masSelectFeats g prompt settings).2 = true := by
  unfold masSelectFeats
  repeat' (first | split | simp only [])
  all_goals simp [segOk, evOk, isDone, cardOk, msg]

theorem segOk_masFactsStage (g : MasGateway) (feats : List (String × JValue)) (prompt : String) :
    segOk (masFactsStage g feats prompt).2 = true := by
  unfold masFactsStage
  repeat' (first | split | simp only [])
  all_goals simp [segOk, evOk, isDone, cardOk, msg]

theorem segOk_masDeepStage (g : MasGateway) (feats : List (String × JValue))
    (prompt cfs : String) : segOk (masDeepStage g feats prompt cfs) = true := by
  unfold masDeepStage
  repeat' (first | split | simp only [])
  all_goals simp [segOk, evOk, isDone, cardOk, msg]

theorem segOk_masTopoStage (g : MasGateway) (feats : List (String × JValue)) (prompt : String) :
    segOk (masTopoStage g feats prompt) = true := by
  unfold masTopoStage
  repeat' (first | split | simp only [])
  all_goals simp [segOk, evOk, isDone, cardOk, msg]

theorem segOk_masBlueprintStage (g : MasGateway) (prompt cfs : String) :
    segOk (masBlueprintStage g prompt cfs).2 = true := by
  unfold masBlueprintStage
  repeat' (first | split | simp only [])
  all_goals simp [segOk, evOk, isDone, cardOk, msg]

theorem segOk_masDebateStage (g : MasGateway) (feats : List (String × JValue)) (feb : String) :
    segOk (masDebateStage g feats feb).1 = true := by
  unfold masDebateStage
  repeat' (first | split | simp only [])
  all_goals simp [segOk, evOk, isDone, cardOk, msg]

theorem segOk_masExecStage (g : MasGateway) (prompt final_plan history_txt : String)
    (temp : Rat) : segOk (masExecStage g prompt final_plan history_txt temp).2 = true := by
  unfold masExecStage
  repeat' (first | split | simp only [])
  all_goals simp [segOk, evOk, isDone, cardOk, msg, List.all_map]

theorem segOk_masSimStage (g : MasGateway) (feats : List (String × JValue))
    (full_resp : String) : segOk (masSimStage g feats full_resp).2 = true := by
  unfold masSimStage
  repeat' (first | split | simp only [])
  all_goals simp [segOk, evOk, isDone, cardOk, msg]

theorem segOk_masAuditStage (g : MasGateway) (feats : List (String × JValue))
    (full_resp : String) : segOk (masAuditStage g feats full_resp) = true := by
  unfold masAuditStage
  repeat' (first | split | simp only [])
  all_goals simp [segOk, evOk, isDone, cardOk, msg]

theorem segOk_whisWHI (g : WhisGateway) (depth : Nat) (task ctx : String) :
    segOk (whisWHI g depth task ctx).2.2.2 = true := by
  unfold whisWHI
  repeat' (first | split | simp only [])
  all_goals simp [segOk, evOk, isDone, cardOk, msg]

theorem segOk_whisSplitStep (g : WhisGateway) (depth : Nat) (task val_w val_h : String) :
    segOk (whisSplitStep g depth task val_w val_h).1 = true := by
  unfold whisSplitStep
  repeat' (first | split | simp only [])
  all_goals simp [segOk, evOk, isDone, cardOk, msg]

theorem segOk_whisLeafExec (g : WhisGateway) (depth : Nat) (ctx task val_w val_h : String) :
    segOk (whisLeafExec g depth ctx task val_w val_h).1 = true := by
  unfold whisLeafExec
  repeat' (first | split | simp only [])
  all_goals simp [segOk, evOk, isDone, cardOk, msg, List.all_map]

theorem segOk_whisProcessItem (g : WhisGateway) (item : TaskNode) (ctx : String) :
    segOk (whisProcessItem g item ctx).1 = true := by
  rcases item with ⟨depth, task, kind⟩
  unfold whisProcessItem
  cases kind <;> (repeat' (first | split | simp only [])) <;>
    (try simp only [segOk_append, segOk_whisWHI, segOk_whisSplitStep, segOk_whisLeafExec,
      Bool.and_true, Bool.true_and]) <;>
    (try simp [segOk, evOk, isDone, cardOk, msg])

theorem segOk_whisRun {g : WhisGateway} :
    ∀ {f : Nat} {s : List TaskNode} {ctx : String} {evs : List Event} {ctxF : String}
      {ab : Bool}, whisRun g f s ctx = some (evs, ctxF, ab) → segOk evs = true := by
  intro f
  induction f with
  | zero => intro s ctx evs ctxF ab h; simp [whisRun] at h
  | succ f ih =>
    intro s ctx evs ctxF ab h
    cases s with
    | nil =>
      have := whisRun_nil_inv h
      simp only [Prod.mk.injEq] at this
      rw [this.1]
      rfl
    | cons item rest =>
      rw [whisRun] at h
      by_cases hab : (whisProcessItem g item ctx).2.2.2 = true
      · simp only [hab, if_true, Option.some.injEq, Prod.mk.injEq] at h
        rw [← h.1]
        exact segOk_whisProcessItem g item ctx
      · simp only [hab, Bool.false_eq_true, if_false] at h
        rcases hrec : whisRun g f ((whisProcessItem g item ctx).2.2.1 ++ rest)
            (whisProcessItem g item ctx).2.1 with _ | r2
        · rw [hrec] at h; exact absurd h (by simp)
        · rw [hrec] at h
          simp only [Option.some.injEq, Prod.mk.injEq] at h
          rw [← h.1, segOk_append, segOk_whisProcessItem g item ctx, ih hrec]
          rfl

/-! ## Claim theorems -/

/-- C8: for every RunningContext string longer than the limit `L = 4000`, the
pruned context is exactly the truncation marker followed by the trailing
4000 characters; strings of length at most 4000 are returned unchanged. -/
theorem C8_prune_context_exact (ctx : String) :
    (4000 < ctx.length →
      prune_context ctx 4000 = "...(truncated)\n" ++ strTakeRight ctx 4000 ∧
        (strTakeRight ctx 4000).length = 4000) ∧
    (ctx.length ≤ 4000 → prune_context ctx 4000 = ctx) := by
  constructor
  · intro h
    have hlen : ctx.length = ctx.data.length := rfl
    constructor
    · unfold prune_context
      rw [if_pos h]
      unfold pySlice pySliceList strTakeRight lastN
      have h1 : (-(Int.ofNat 4000) : Int) < 0 := by
        simp only [Int.ofNat_eq_coe]; omega
      have h2 : ¬ ((Int.ofNat ctx.length : Int) < 0) := by
        simp only [Int.ofNat_eq_coe]; omega
      have h3 : (max (Int.ofNat ctx.data.length + -(Int.ofNat 4000)) 0).toNat =
          ctx.data.length - 4000 := by
        rw [hlen] at h
        simp only [Int.ofNat_eq_coe]; omega
      have h4 : (min (Int.ofNat ctx.length) (Int.ofNat ctx.data.length)).toNat =
          ctx.data.length := by
        rw [hlen]
        simp only [Int.ofNat_eq_coe]; omega
      simp only []
      rw [if_pos h1, if_neg h2, h3, h4, List.take_length]
    · rw [hlen] at h
      show (String.mk (lastN 4000 ctx.data)).length = 4000
      unfold lastN
      show (ctx.data.drop (ctx.data.length - 4000)).length = 4000
      rw [List.length_drop]
      omega
  · intro h
    unfold prune_context
    rw [if_neg (by omega)]

/-- Witness for C8 at a concrete 4001-character context and a short context. -/
theorem C8_witness :
    (4000 < bigCtx.length ∧
      prune_context bigCtx 4000 = "...(truncated)\n" ++ strTakeRight bigCtx 4000 ∧
        (strTakeRight bigCtx 4000).length = 4000) ∧
    ("abc".length ≤ 4000 ∧ prune_context "abc" 4000 = "abc") := by
  have h1 : 4000 < bigCtx.length := by
    show 4000 < (List.replicate 4001 'a').length
    rw [List.length_replicate]
    omega
  have h2 : ("abc" : String).length ≤ 4000 := by decide
  exact ⟨⟨h1, (C8_prune_context_exact bigCtx).1 h1⟩, ⟨h2, (C8_prune_context_exact "abc").2 h2⟩⟩

/-- C10: a completed leaf execution updates the stored running context to
exactly the old value followed by the transcript fragment
`"\nUser: <task>\nAI: <response>\n"`, with no pruning of the stored
accumulator (the pruned copy appears only inside the prompt, as the
hypothesis shows); consequently the stored context can grow beyond the
4000-character limit. -/
theorem C10_context_append_exact (g : WhisGateway) (depth : Nat)
    (ctx task val_w val_h : String) (chunks : List String) (err : Option String)
    (h : g.modelStream ("### Instruction:\n" ++ whisExecPrompt ctx task val_w val_h ++
        "\n\n### Response:\n") 2048 (7/10) ["###"] = some (chunks, err)) :
    (whisLeafExec g depth ctx task val_w val_h).2 =
      (ctx ++ "\nUser: " ++ task ++ "\nAI: " ++ strConcat chunks ++ "\n", false) := by
  unfold whisLeafExec
  rw [h]

/-- Witness for C10 at a concrete gateway and context. -/
theorem C10_witness :
    gWhisStream1.modelStream ("### Instruction:\n" ++ whisExecPrompt "c" "t" "w" "h" ++
        "\n\n### Response:\n") 2048 (7/10) ["###"] = some (["4"], none) ∧
    (whisLeafExec gWhisStream1 1 "c" "t" "w" "h").2 =
      ("c" ++ "\nUser: " ++ "t" ++ "\nAI: " ++ strConcat ["4"] ++ "\n", false) :=
  ⟨rfl, C10_context_append_exact gWhisStream1 1 "c" "t" "w" "h" ["4"] none rfl⟩

/-- C3: a MAIN/SUB node at depth at or beyond `MAX_DEPTH` is never a split
candidate: the single-step question cannot influence the verdict (the verdict
is `"YES"` for every gateway), and the node is processed exactly as a leaf
with nothing pushed onto the stack. -/
theorem C3_depth_bound_leaf (g : WhisGateway) (depth : Nat) (task ctx : String)
    (kind : NodeKind) (hd : MAX_DEPTH ≤ depth) (hk : kind ≠ NodeKind.RESUME) :
    (whisWHI g depth task ctx).2.2.1 = "YES" ∧
    whisProcessItem g ⟨depth, task, kind⟩ ctx =
      ((whisWHI g depth task ctx).2.2.2 ++
        (whisLeafExec g depth ctx task (whisWHI g depth task ctx).1
          (whisWHI g depth task ctx).2.1).1,
        (whisLeafExec g depth ctx task (whisWHI g depth task ctx).1
          (whisWHI g depth task ctx).2.1).2.1,
        [],
        (whisLeafExec g depth ctx task (whisWHI g depth task ctx).1
          (whisWHI g depth task ctx).2.1).2.2) := by
  have hval : (whisWHI g depth task ctx).2.2.1 = "YES" := by
    unfold whisWHI
    simp only []
    split
    · rfl
    · simp only [if_neg (by omega : ¬ depth < MAX_DEPTH)]
  refine ⟨hval, ?_⟩
  unfold whisProcessItem
  cases kind
  · simp only [hval]; rfl
  · simp only [hval]; rfl
  · exact absurd rfl hk

/-- Witness for C3 at depth 3 with the null gateway. -/
theorem C3_witness :
    MAX_DEPTH ≤ 3 ∧ NodeKind.SUB ≠ NodeKind.RESUME ∧
    (whisWHI gWhisNull 3 "t" "").2.2.1 = "YES" ∧
    whisProcessItem gWhisNull ⟨3, "t", .SUB⟩ "" =
      ((whisWHI gWhisNull 3 "t" "").2.2.2 ++
        (whisLeafExec gWhisNull 3 "" "t" (whisWHI gWhisNull 3 "t" "").1
          (whisWHI gWhisNull 3 "t" "").2.1).1,
        (whisLeafExec gWhisNull 3 "" "t" (whisWHI gWhisNull 3 "t" "").1
          (whisWHI gWhisNull 3 "t" "").2.1).2.1,
        [],
        (whisLeafExec gWhisNull 3 "" "t" (whisWHI gWhisNull 3 "t" "").1
          (whisWHI gWhisNull 3 "t" "").2.1).2.2) :=
  ⟨by decide, by decide, C3_depth_bound_leaf gWhisNull 3 "t" "" .SUB (by decide) (by decide)⟩

/-- C7: in either orchestration mode the emitted event stream contains at most
one `done` event, any `done` event is the last event of the stream, and every
`card` event carries a non-null target. -/
theorem C7_event_stream_wf :
    (∀ (g : MasGateway) (store : Store) (prompt sid : String) (st : MasSettings),
      wfStream (masPipeline g store prompt sid st).events = true) ∧
    (∀ (g : WhisGateway) (fuel : Nat) (store : Store) (prompt sid : String) (r : WhisResult),
      whisPipeline g fuel store prompt sid = some r → wfStream r.events = true) := by
  constructor
  · intro g store prompt sid st
    unfold masPipeline
    rcases hs : lookupSession store sid with _ | sess
    · simp [wfStream]
    · simp only []
      have hseg : segOk (msg .status "Initializing SSESIS v1.0..." none ::
          (masSelectFeats g prompt st).2 ++ [msg .status "Apollo Integrity Check" none] ++
          (masFactsStage g (masSelectFeats g prompt st).1 prompt).2 ++
          masDeepStage g (masSelectFeats g prompt st).1 prompt
            (masFactsStage g (masSelectFeats g prompt st).1 prompt).1 ++
          masTopoStage g (masSelectFeats g prompt st).1 prompt ++
          (masBlueprintStage g prompt (masFactsStage g (masSelectFeats g prompt st).1 prompt).1).2 ++
          (masDebateStage g (masSelectFeats g prompt st).1
            (masBlueprintStage g prompt (masFactsStage g (masSelectFeats g prompt st).1 prompt).1).1).1)
          = true := by
        simp [segOk_append, segOk_cons, segOk_nil, segOk_masSelectFeats, segOk_masFactsStage,
          segOk_masDeepStage, segOk_masTopoStage, segOk_masBlueprintStage, segOk_masDebateStage,
          evOk, isDone, cardOk, msg]
      rcases hd : (masDebateStage g (masSelectFeats g prompt st).1
          (masBlueprintStage g prompt
            (masFactsStage g (masSelectFeats g prompt st).1 prompt).1).1).2 with _ | final_plan
      · simp only [hd]
        exact wfStream_of_segOk hseg
      · simp only [hd]
        refine wfStream_append_done "Ready" ?_
        simp [segOk_append, segOk_cons, segOk_nil, segOk_masSelectFeats, segOk_masFactsStage,
          segOk_masDeepStage, segOk_masTopoStage, segOk_masBlueprintStage, segOk_masDebateStage,
          segOk_masExecStage, segOk_masSimStage, segOk_masAuditStage, evOk, isDone, cardOk, msg]
  · intro g fuel store prompt sid r h
    unfold whisPipeline at h
    rcases hs : lookupSession store sid with _ | sess
    · rw [hs] at h
      simp only [Option.some.injEq] at h
      rw [← h]
      simp [wfStream]
    · rw [hs] at h
      simp only [] at h
      rcases hr : whisRun g fuel [⟨1, prompt, .MAIN⟩] (whisHistoryCtx sess.history) with
        _ | res
      · rw [hr] at h; exact absurd h (by simp)
      · obtain ⟨evs, ctxF, ab⟩ := res
        rw [hr] at h
        have hevs : segOk (msg .status "Initializing WHIS-ReAct Protocol..." none :: evs)
            = true := by
          rw [segOk_cons, segOk_whisRun hr]
          simp [evOk, isDone, cardOk, msg]
        cases ab
        · simp only [Option.some.injEq] at h
          rw [← h]
          exact wfStream_append_done "Ready" hevs
        · simp only [Option.some.injEq] at h
          rw [← h]
          exact wfStream_of_segOk hevs

/-- Witness for C7: both pipelines evaluated at concrete inputs. -/
theorem C7_witness :
    wfStream (masPipeline gMasNull store0 "p" "s1" stAuto).events = true ∧
    (whisPipeline gWhisStream1 10 store0 "hi" "s1").map (fun r => wfStream r.events) =
      some true := by
  refine ⟨C7_event_stream_wf.1 gMasNull store0 "p" "s1" stAuto, ?_⟩
  rcases hr : whisPipeline gWhisStream1 10 store0 "hi" "s1" with _ | r
  · exact absurd hr (by decide)
  · simp only [Option.map, hr]
    rw [C7_event_stream_wf.2 gWhisStream1 10 store0 "hi" "s1" r hr]

/-! ## Helper lemmas: the session store -/

theorem appendTurns_nil (store : Store) (uid : String) :
    appendTurns store uid [] = store := by
  have hpt : ∀ kv : String × Session,
      (if kv.1 == uid then (kv.1, { kv.2 with history := kv.2.history ++ ([] : List Turn) })
        else kv) = kv := by
    intro kv
    split <;> simp
  simp [appendTurns, hpt]

theorem appendTurns_cons (kv : String × Session) (rest : Store) (sid : String)
    (ts : List Turn) :
    appendTurns (kv :: rest) sid ts =
      (if kv.1 == sid then (kv.1, { kv.2 with history := kv.2.history ++ ts }) else kv) ::
        appendTurns rest sid ts := rfl

theorem lookup_appendTurns_ne (store : Store) (sid : String) (ts : List Turn) (uid : String)
    (h : uid ≠ sid) :
    lookupSession (appendTurns store sid ts) uid = lookupSession store uid := by
  induction store with
  | nil => rfl
  | cons kv rest ih =>
    rw [appendTurns_cons]
    by_cases hk : kv.1 = sid
    · have hku : (kv.1 == uid) = false := by
        rw [hk]
        exact beq_eq_false_iff_ne.mpr (fun hh => h hh.symm)
      rw [if_pos (beq_iff_eq.mpr hk)]
      unfold lookupSession
      simp only [hku, Bool.false_eq_true, if_false]
      exact ih
    · rw [if_neg (by simp [beq_eq_false_iff_ne.mpr hk])]
      unfold lookupSession
      by_cases hu : kv.1 = uid
      · simp [beq_iff_eq.mpr hu]
      · simp only [beq_eq_false_iff_ne.mpr hu, Bool.false_eq_true, if_false]
        exact ih

theorem lookup_appendTurns_eq (store : Store) (sid : String) (ts : List Turn) (s : Session)
    (h : lookupSession store sid = some s) :
    lookupSession (appendTurns store sid ts) sid =
      some { s with history := s.history ++ ts } := by
  induction store with
  | nil => simp [lookupSession] at h
  | cons kv rest ih =>
    rw [appendTurns_cons]
    by_cases hk : kv.1 = sid
    · rw [if_pos (beq_iff_eq.mpr hk)]
      unfold lookupSession at h ⊢
      simp only [beq_iff_eq.mpr hk, if_true, Option.some.injEq] at h ⊢
      rw [h]
    · rw [if_neg (by simp [beq_eq_false_iff_ne.mpr hk])]
      unfold lookupSession at h ⊢
      simp only [beq_eq_false_iff_ne.mpr hk, Bool.false_eq_true, if_false] at h ⊢
      exact ih h

/-- C9: a run of either pipeline only ever changes the store by appending
turns to the target session (possibly none at all); appending turns preserves
every other session exactly and preserves the target session's `id`, `title`
and `created` fields, extending only its history. -/
theorem C9_store_frame :
    (∀ (g : MasGateway) (store : Store) (prompt sid : String) (st : MasSettings),
      ∃ ts, (masPipeline g store prompt sid st).store = appendTurns store sid ts) ∧
    (∀ (g : WhisGateway) (fuel : Nat) (store : Store) (prompt sid : String) (r : WhisResult),
      whisPipeline g fuel store prompt sid = some r →
      ∃ ts, r.store = appendTurns store sid ts) ∧
    (∀ (store : Store) (sid : String) (ts : List Turn) (uid : String), uid ≠ sid →
      lookupSession (appendTurns store sid ts) uid = lookupSession store uid) ∧
    (∀ (store : Store) (sid : String) (ts : List Turn) (s : Session),
      lookupSession store sid = some s →
      lookupSession (appendTurns store sid ts) sid =
        some { s with history := s.history ++ ts }) := by
  refine ⟨?_, ?_, lookup_appendTurns_ne, lookup_appendTurns_eq⟩
  · intro g store prompt sid st
    unfold masPipeline
    rcases lookupSession store sid with _ | sess
    · exact ⟨[], (appendTurns_nil store sid).symm⟩
    · simp only []
      rcases (masDebateStage g (masSelectFeats g prompt st).1
          (masBlueprintStage g prompt
            (masFactsStage g (masSelectFeats g prompt st).1 prompt).1).1).2 with _ | final_plan
      · exact ⟨[], (appendTurns_nil store sid).symm⟩
      · exact ⟨_, rfl⟩
  · intro g fuel store prompt sid r h
    unfold whisPipeline at h
    rcases hs : lookupSession store sid with _ | sess
    · rw [hs] at h
      simp only [Option.some.injEq] at h
      exact ⟨[], by rw [← h]; exact (appendTurns_nil store sid).symm⟩
    · rw [hs] at h
      simp only [] at h
      rcases hr : whisRun g fuel [⟨1, prompt, .MAIN⟩] (whisHistoryCtx sess.history) with _ | res
      · rw [hr] at h
        exact absurd h (by simp)
      · obtain ⟨evs, ctxF, ab⟩ := res
        rw [hr] at h
        cases ab
        · simp only [Option.some.injEq] at h
          exact ⟨[⟨"user", prompt⟩], by rw [← h]⟩
        · simp only [Option.some.injEq] at h
          exact ⟨[], by rw [← h]; exact (appendTurns_nil store sid).symm⟩

/-- Witness for C9: the frame conditions at a concrete store and session. -/
theorem C9_witness :
    ("s2" : String) ≠ "s1" ∧
    lookupSession (appendTurns store0 "s1" [⟨"user", "p"⟩]) "s2" = lookupSession store0 "s2" ∧
    lookupSession store0 "s1" = some ⟨"s1", "New Operation", [], 0⟩ ∧
    lookupSession (appendTurns store0 "s1" [⟨"user", "p"⟩]) "s1" =
      some ⟨"s1", "New Operation", [] ++ [⟨"user", "p"⟩], 0⟩ :=
  ⟨by decide, C9_store_frame.2.2.1 store0 "s1" [⟨"user", "p"⟩] "s2" (by decide), rfl,
    C9_store_frame.2.2.2 store0 "s1" [⟨"user", "p"⟩] ⟨"s1", "New Operation", [], 0⟩ rfl⟩

/-- Counterexample for C5: in auto mode, when the classification call itself
fails (null gateway result), the flags do *not* fall back to the fixed default
set — they remain the caller-supplied manual protocols (here empty, so `facts`
is off even though the default set has it on). -/
theorem C5_counterexample :
    (masSelectFeats gMasNull "p" stAuto).1 = [] ∧
    featsGet (masSelectFeats gMasNull "p" stAuto).1 "facts" = false ∧
    featsGet masDefaultFeats "facts" = true :=
  ⟨rfl, rfl, rfl⟩

/-- C5 (amended): the Feature Selector never raises; when the classification
call returns a response whose extracted brace span fails to parse as a JSON
object, it falls back to the fixed default flag set (facts, plan, simulation);
when the call itself returns null, the flags stay the caller-supplied manual
protocols; when an object parses, its entries become the flags. -/
theorem C5_selector_fallback (g : MasGateway) (prompt : String) (st : MasSettings)
    (hauto : st.auto_mode = true) :
    (masInference g (masSelectorPrompt prompt) (1/10) 4096 ["<|user|>"] = none →
      masSelectFeats g prompt st =
        (st.manual_protocols, [msg .status "Dynamic Protocol Selection..." none])) ∧
    (∀ txt, masInference g (masSelectorPrompt prompt) (1/10) 4096 ["<|user|>"] = some txt →
      (∀ kvs, jsonLoads (pySlice txt (strFind txt lbraceC) (strRFind txt rbraceC + 1)) ≠
        some (.jobj kvs)) →
      masSelectFeats g prompt st =
        (masDefaultFeats, [msg .status "Dynamic Protocol Selection..." none])) ∧
    (∀ txt kvs, masInference g (masSelectorPrompt prompt) (1/10) 4096 ["<|user|>"] = some txt →
      jsonLoads (pySlice txt (strFind txt lbraceC) (strRFind txt rbraceC + 1)) =
        some (.jobj kvs) →
      (masSelectFeats g prompt st).1 = kvs) := by
  refine ⟨?_, ?_, ?_⟩
  · intro hnone
    unfold masSelectFeats
    rw [if_pos hauto, hnone]
  · intro txt hsome hfail
    unfold masSelectFeats
    rw [if_pos hauto, hsome]
    simp only []
    rcases hj : jsonLoads (pySlice txt (strFind txt lbraceC) (strRFind txt rbraceC + 1)) with
      _ | v
    · rfl
    · rcases v with _ | b | q | str | xs | kvs
      · rfl
      · rfl
      · rfl
      · rfl
      · rfl
      · exact absurd hj (hfail kvs)
  · intro txt kvs hsome hj
    unfold masSelectFeats
    rw [if_pos hauto, hsome]
    simp only []
    rw [hj]

/-- Witness for C5 (amended): the null-call case at concrete inputs. -/
theorem C5_witness :
    stAuto.auto_mode = true ∧
    masInference gMasNull (masSelectorPrompt "p") (1/10) 4096 ["<|user|>"] = none ∧
    masSelectFeats gMasNull "p" stAuto =
      (stAuto.manual_protocols, [msg .status "Dynamic Protocol Selection..." none]) :=
  ⟨rfl, rfl, (C5_selector_fallback gMasNull "p" stAuto rfl).1 rfl⟩

/-- Counterexample for C6: a completed decomposition-mode run (the event
stream ends with `done`) appends only the user turn to the session history;
the assistant response is never persisted, contradicting the claim that both
turns are appended in either mode. -/
theorem C6_counterexample :
    (whisPipeline gWhisStream1 10 store0 "hi" "s1").map
        (fun r => (r.aborted, r.events.getLast?,
          (lookupSession r.store "s1").map (fun sess => sess.history))) =
      some (false, some (msg .done "Ready" none), some [⟨"user", "hi"⟩]) := by
  rfl

/-- C6 (amended): at the end of a non-aborted run, pipeline mode appends the
user prompt and the full assistant response as two turns, while decomposition
mode appends only the user turn. -/
theorem C6_finalization (g : MasGateway) (g' : WhisGateway) (fuel : Nat) (store : Store)
    (prompt sid : String) (st : MasSettings) (sess : Session) (r : WhisResult)
    (hs : lookupSession store sid = some sess) :
    ((masPipeline g store prompt sid st).aborted = false →
      ∃ resp, (masPipeline g store prompt sid st).store =
        appendTurns store sid [⟨"user", prompt⟩, ⟨"assistant", resp⟩]) ∧
    (whisPipeline g' fuel store prompt sid = some r → r.aborted = false →
      r.store = appendTurns store sid [⟨"user", prompt⟩]) := by
  constructor
  · unfold masPipeline
    rw [hs]
    simp only []
    split
    · intro hab
      exact absurd hab (by simp)
    · intro _
      exact ⟨_, rfl⟩
  · intro h hab
    unfold whisPipeline at h
    rw [hs] at h
    simp only [] at h
    rcases hr : whisRun g' fuel [⟨1, prompt, .MAIN⟩] (whisHistoryCtx sess.history) with _ | res
    · rw [hr] at h
      exact absurd h (by simp)
    · obtain ⟨evs, ctxF, ab⟩ := res
      rw [hr] at h
      cases ab
      · simp only [Option.some.injEq] at h
        rw [← h]
      · simp only [Option.some.injEq] at h
        rw [← h] at hab
        exact absurd hab (by simp)

/-- Witness for C6 (amended): concrete runs in both modes. -/
theorem C6_witness :
    lookupSession store0 "s1" = some ⟨"s1", "New Operation", [], 0⟩ ∧
    (masPipeline gMasNull store0 "p" "s1" stAuto).aborted = false ∧
    whisPipeline gWhisStream1 10 store0 "hi" "s1" =
      some ((whisPipeline gWhisStream1 10 store0 "hi" "s1").getD ⟨[], [], false⟩) ∧
    ((whisPipeline gWhisStream1 10 store0 "hi" "s1").getD ⟨[], [], false⟩).aborted = false ∧
    ((whisPipeline gWhisStream1 10 store0 "hi" "s1").getD ⟨[], [], false⟩).store =
      appendTurns store0 "s1" [⟨"user", "hi"⟩] :=
  ⟨rfl, rfl, rfl, rfl,
    (C6_finalization gMasNull gWhisStream1 10 store0 "hi" "s1" stAuto
      ⟨"s1", "New Operation", [], 0⟩
      ((whisPipeline gWhisStream1 10 store0 "hi" "s1").getD ⟨[], [], false⟩) rfl).2 rfl rfl⟩

/-- Counterexample for C1: with no model loaded (null gateway) and the debate
protocol enabled, the pipeline-mode run aborts (the two debate plan calls
subscript the null result), and no `done` event is ever emitted. -/
theorem C1_counterexample :
    (masPipeline gMasNull store0 "p" "s1" stManualDebate).aborted = true ∧
    (masPipeline gMasNull store0 "p" "s1" stManualDebate).events.all
      (fun e => !(isDone e)) = true :=
  ⟨rfl, rfl⟩

/-- C1 (amended): every `inference` call site except the debate stage treats a
null gateway result as "stage produced nothing" and the run continues to the
terminal `done` event — in particular a manual-mode pipeline run without the
debate flag never aborts, for any gateway.  In decomposition mode, however,
leaf execution accesses the model directly, so a run with no model loaded
aborts at the first leaf. -/
theorem C1_null_tolerance :
    (∀ (g : MasGateway) (store : Store) (prompt sid : String) (st : MasSettings)
      (sess : Session),
      st.auto_mode = false → featsGet st.manual_protocols "debate" = false →
      lookupSession store sid = some sess →
      (masPipeline g store prompt sid st).aborted = false ∧
      (masPipeline g store prompt sid st).events.getLast? =
        some (msg .done "Ready" none)) ∧
    (∀ (store : Store) (prompt sid : String) (sess : Session) (fuel : Nat) (r : WhisResult),
      lookupSession store sid = some sess →
      whisPipeline gWhisNull fuel store prompt sid = some r → r.aborted = true) := by
  have hstep : ∀ p c, (whisProcessItem gWhisNull ⟨1, p, .MAIN⟩ c).2.2.2 = true := by
    intro p c
    simp [whisProcessItem, whisWHI, whisLeafExec, whisInference, gWhisNull, clean_resp,
      MAX_DEPTH, show ("YES" : String) ≠ "NO" from by decide]
  constructor
  · intro g store prompt sid st sess hauto hdeb hs
    have hsel : masSelectFeats g prompt st = (st.manual_protocols, []) := by
      unfold masSelectFeats
      rw [if_neg (by simp [hauto])]
    have hdebs : ∀ feb, masDebateStage g st.manual_protocols feb = ([], some feb) := by
      intro feb
      unfold masDebateStage
      rw [if_neg (by simp [hdeb])]
    unfold masPipeline
    rw [hs]
    simp only []
    rw [hsel]
    simp only []
    rw [hdebs]
    simp only []
    exact ⟨by trivial, by rw [List.getLast?_concat]⟩
  · intro store prompt sid sess fuel r hs h
    unfold whisPipeline at h
    rw [hs] at h
    simp only [] at h
    cases fuel with
    | zero => simp [whisRun] at h
    | succ f =>
      have hrun : whisRun gWhisNull (f + 1) [⟨1, prompt, .MAIN⟩]
          (whisHistoryCtx sess.history) =
          some ((whisProcessItem gWhisNull ⟨1, prompt, .MAIN⟩ (whisHistoryCtx sess.history)).1,
            (whisProcessItem gWhisNull ⟨1, prompt, .MAIN⟩ (whisHistoryCtx sess.history)).2.1,
            true) := by
        rw [whisRun]
        simp only [hstep, if_true]
      rw [hrun] at h
      simp only [Option.some.injEq] at h
      rw [← h]

/-- Witness for C1 (amended): both parts at concrete inputs. -/
theorem C1_witness :
    (stManualPlain.auto_mode = false ∧
      featsGet stManualPlain.manual_protocols "debate" = false ∧
      lookupSession store0 "s1" = some ⟨"s1", "New Operation", [], 0⟩ ∧
      (masPipeline gMasNull store0 "p" "s1" stManualPlain).aborted = false ∧
      (masPipeline gMasNull store0 "p" "s1" stManualPlain).events.getLast? =
        some (msg .done "Ready" none)) ∧
    (whisPipeline gWhisNull 10 store0 "hi" "s1" =
      some ((whisPipeline gWhisNull 10 store0 "hi" "s1").getD ⟨[], [], false⟩) ∧
      ((whisPipeline gWhisNull 10 store0 "hi" "s1").getD ⟨[], [], false⟩).aborted = true) := by
  refine ⟨⟨rfl, rfl, rfl, ?_⟩, rfl, ?_⟩
  · exact C1_null_tolerance.1 gMasNull store0 "p" "s1" stManualPlain
      ⟨"s1", "New Operation", [], 0⟩ rfl rfl rfl
  · exact C1_null_tolerance.2 store0 "hi" "s1" ⟨"s1", "New Operation", [], 0⟩ 10
      ((whisPipeline gWhisNull 10 store0 "hi" "s1").getD ⟨[], [], false⟩) rfl rfl

/-- Counterexample for C4: when the split call answers `"not json"` (no
bracketed span), the run does not raise, but the node is *not* executed as a
leaf either: the whole run completes with no execution status and no token
events, the node having been silently dropped. -/
theorem C4_counterexample :
    whisRun gSplitNoJson 10 [⟨1, "t", .MAIN⟩] "" =
      some ([msg .status "[>>] D1 WHI Analysis..." none,
        msg .card "W: Gt" (some "[>>] D1 WHI"),
        msg .card "H: St" (some "[>>] D1 WHI"),
        msg .card "I: NO" (some "[>>] D1 WHI"),
        msg .status "[>>] D1 Status: COMPLEX. Splitting..." none], "", false) ∧
    (whisRun gSplitNoJson 10 [⟨1, "t", .MAIN⟩] "").map
      (fun r => r.1.all (fun e => !(e.type == EType.token))) = some true :=
  ⟨rfl, rfl⟩

/-- C4 (amended): the split step never raises out of the run.  A null split
response and a found bracketed span that fails JSON parsing both fall back to
leaf execution; but a response with *no* bracketed span leaves `val_i = "NO"`
so the node is skipped entirely: nothing is pushed, the context is unchanged
and no leaf execution happens. -/
theorem C4_split_fallback (g : WhisGateway) (depth : Nat) (task val_w val_h : String) :
    (whisInference g (whisSplitPrompt val_w val_h) (1/10) 2048 ["###", "User:", "\n\n"] =
        none →
      whisSplitStep g depth task val_w val_h =
        ([msg .status (whisTag depth ++ " Status: COMPLEX. Splitting...") none], [],
          .leaf)) ∧
    (∀ txt,
      whisInference g (whisSplitPrompt val_w val_h) (1/10) 2048 ["###", "User:", "\n\n"] =
        some txt →
      bracketSpan txt = none →
      whisSplitStep g depth task val_w val_h =
        ([msg .status (whisTag depth ++ " Status: COMPLEX. Splitting...") none], [],
          .drop)) ∧
    (∀ txt span,
      whisInference g (whisSplitPrompt val_w val_h) (1/10) 2048 ["###", "User:", "\n\n"] =
        some txt →
      bracketSpan txt = some span → jsonLoads span = none →
      whisSplitStep g depth task val_w val_h =
        ([msg .status (whisTag depth ++ " Status: COMPLEX. Splitting...") none], [],
          .leaf)) ∧
    (∀ ctx (kind : NodeKind), kind ≠ NodeKind.RESUME →
      (whisWHI g depth task ctx).2.2.1 = "NO" →
      (whisSplitStep g depth task (whisWHI g depth task ctx).1
        (whisWHI g depth task ctx).2.1).2.2 = SplitNext.drop →
      whisProcessItem g ⟨depth, task, kind⟩ ctx =
        ((whisWHI g depth task ctx).2.2.2 ++
          (whisSplitStep g depth task (whisWHI g depth task ctx).1
            (whisWHI g depth task ctx).2.1).1, ctx,
          (whisSplitStep g depth task (whisWHI g depth task ctx).1
            (whisWHI g depth task ctx).2.1).2.1, false)) := by
  refine ⟨?_, ?_, ?_, ?_⟩
  · intro hnone
    unfold whisSplitStep
    rw [hnone]
  · intro txt hsome hbs
    unfold whisSplitStep
    rw [hsome]
    simp only []
    rw [hbs]
  · intro txt span hsome hbs hj
    unfold whisSplitStep
    rw [hsome]
    simp only []
    rw [hbs]
    simp only []
    rw [hj]
  · intro ctx kind hkind hNO hdrop
    have hcond : ((whisWHI g depth task ctx).2.2.1 == "NO") = true := by
      rw [hNO]
      rfl
    cases kind with
    | RESUME => exact absurd rfl hkind
    | MAIN =>
      unfold whisProcessItem
      simp only [hcond, if_true]
      split <;> first
        | rfl
        | (rename_i heq; rw [heq] at hdrop; exact absurd hdrop (by simp))
    | SUB =>
      unfold whisProcessItem
      simp only [hcond, if_true]
      split <;> first
        | rfl
        | (rename_i heq; rw [heq] at hdrop; exact absurd hdrop (by simp))

/-- Witness for C4 (amended): the no-bracket-span case at concrete inputs. -/
theorem C4_witness :
    whisInference gSplitNoJson (whisSplitPrompt "Gt" "St") (1/10) 2048
      ["###", "User:", "\n\n"] = some "not json" ∧
    bracketSpan "not json" = none ∧
    whisSplitStep gSplitNoJson 1 "t" "Gt" "St" =
      ([msg .status (whisTag 1 ++ " Status: COMPLEX. Splitting...") none], [], .drop) ∧
    (whisWHI gSplitNoJson 1 "t" "").2.2.1 = "NO" ∧
    whisProcessItem gSplitNoJson ⟨1, "t", .MAIN⟩ "" =
      ((whisWHI gSplitNoJson 1 "t" "").2.2.2 ++
        (whisSplitStep gSplitNoJson 1 "t" (whisWHI gSplitNoJson 1 "t" "").1
          (whisWHI gSplitNoJson 1 "t" "").2.1).1, "",
        (whisSplitStep gSplitNoJson 1 "t" (whisWHI gSplitNoJson 1 "t" "").1
          (whisWHI gSplitNoJson 1 "t" "").2.1).2.1, false) := by
  refine ⟨rfl, rfl, ?_, rfl, ?_⟩
  · exact (C4_split_fallback gSplitNoJson 1 "t" "Gt" "St").2.1 "not json" rfl rfl
  · exact (C4_split_fallback gSplitNoJson 1 "t" "Gt" "St").2.2.2 "" .MAIN (by decide) rfl rfl

theorem jvalPyStr_jstr : jvalPyStr ∘ JValue.jstr = id := funext (fun _ => rfl)

/-- The SUB nodes pushed for the sub-tasks of a successful split at depth
`k`: one node per sub-task at depth `k + 1`, in list order (top of stack
first). -/
def subNodes (k : Nat) (ts : List String) : List TaskNode :=
  ts.map (fun t => ⟨k + 1, t, .SUB⟩)

/-- C2: a successful split of a MAIN/SUB node at depth `k` into sub-tasks
`ts` pushes the RESUME node for the parent before the SUB children (children
reversed, so the new stack reads `t1, …, tn, RESUME` from the top), and in
any completed continuation of the run the children's subtrees are processed
in order `t1` before … before `tn` (`RunSeq`), the parent's aggregation
(RESUME) events fire only after all descendants are done, and only then does
the rest of the stack proceed. -/
theorem C2_split_order (g : WhisGateway) (k : Nat) (task ctx : String) (kind : NodeKind)
    (w h : String) (wEvs : List Event) (txt span : String) (ts : List String)
    (hkind : kind ≠ NodeKind.RESUME)
    (hw : whisWHI g k task ctx = (w, h, "NO", wEvs))
    (h1 : whisInference g (whisSplitPrompt w h) (1/10) 2048 ["###", "User:", "\n\n"] =
      some txt)
    (h2 : bracketSpan txt = some span)
    (h3 : jsonLoads span = some (.jarr (ts.map JValue.jstr))) :
    whisSplitStep g k task w h =
      ([msg .status (whisTag k ++ " Status: COMPLEX. Splitting...") none,
        msg .card (strJoinSep "\n" ts) (some (whisTag k ++ " Split Plan"))],
        subNodes k ts ++ [⟨k, task, .RESUME⟩], .cont) ∧
    whisProcessItem g ⟨k, task, kind⟩ ctx =
      (wEvs ++ [msg .status (whisTag k ++ " Status: COMPLEX. Splitting...") none,
        msg .card (strJoinSep "\n" ts) (some (whisTag k ++ " Split Plan"))], ctx,
        subNodes k ts ++ [⟨k, task, .RESUME⟩], false) ∧
    (∀ fuel (rest : List TaskNode) evs ctxF ab,
      whisRun g fuel (⟨k, task, kind⟩ :: rest) ctx = some (evs, ctxF, ab) →
      ∃ kidsEvs ctxK abK, RunSeq g (subNodes k ts) ctx kidsEvs ctxK abK ∧
        ((abK = true ∧ ab = true ∧
            evs = wEvs ++ [msg .status (whisTag k ++ " Status: COMPLEX. Splitting...") none,
              msg .card (strJoinSep "\n" ts) (some (whisTag k ++ " Split Plan"))] ++
              kidsEvs ∧
            ctxF = ctxK) ∨
         (abK = false ∧ ∃ f3 evsRest, whisRun g f3 rest ctxK = some (evsRest, ctxF, ab) ∧
            evs = wEvs ++ [msg .status (whisTag k ++ " Status: COMPLEX. Splitting...") none,
              msg .card (strJoinSep "\n" ts) (some (whisTag k ++ " Split Plan"))] ++
              kidsEvs ++ resumeEvs k task ++ evsRest))) := by
  have ha : whisSplitStep g k task w h =
      ([msg .status (whisTag k ++ " Status: COMPLEX. Splitting...") none,
        msg .card (strJoinSep "\n" ts) (some (whisTag k ++ " Split Plan"))],
        subNodes k ts ++ [⟨k, task, .RESUME⟩], .cont) := by
    unfold whisSplitStep
    rw [h1]
    simp only []
    rw [h2]
    simp only []
    rw [h3]
    simp only []
    rw [if_pos (by simp [List.all_map, JValue.isStr, Function.comp])]
    simp [subNodes, List.map_map, jvalPyStr, jvalPyStr_jstr, Function.comp]
  have hb : whisProcessItem g ⟨k, task, kind⟩ ctx =
      (wEvs ++ [msg .status (whisTag k ++ " Status: COMPLEX. Splitting...") none,
        msg .card (strJoinSep "\n" ts) (some (whisTag k ++ " Split Plan"))], ctx,
        subNodes k ts ++ [⟨k, task, .RESUME⟩], false) := by
    cases kind with
    | RESUME => exact absurd rfl hkind
    | MAIN =>
      unfold whisProcessItem
      rw [hw]
      simp only []
      rw [if_pos (by rfl)]
      rw [ha]
    | SUB =>
      unfold whisProcessItem
      rw [hw]
      simp only []
      rw [if_pos (by rfl)]
      rw [ha]
  refine ⟨ha, hb, ?_⟩
  intro fuel rest evs ctxF ab hrun
  cases fuel with
  | zero => simp [whisRun] at hrun
  | succ f =>
    rw [whisRun] at hrun
    rw [hb] at hrun
    simp only [Bool.false_eq_true, if_false] at hrun
    rcases hrec : whisRun g f ((subNodes k ts ++ [⟨k, task, .RESUME⟩]) ++ rest) ctx with
      _ | res
    · rw [hrec] at hrun
      exact absurd hrun (by simp)
    · obtain ⟨evsN, ctxN, abN⟩ := res
      rw [hrec] at hrun
      simp only [Option.some.injEq, Prod.mk.injEq] at hrun
      obtain ⟨hevs, hctxF, hab⟩ := hrun
      rw [List.append_assoc, List.singleton_append] at hrec
      obtain ⟨f1, evs1, ctx1, ab1, hkids, hcase⟩ := whisRun_append hrec
      refine ⟨evs1, ctx1, ab1, whisRun_runSeq hkids, ?_⟩
      rcases hcase with ⟨hab1, habN, hevsN, hctx⟩ | ⟨hab1, f2, evs2, h2run, hevsN⟩
      · exact Or.inl ⟨hab1, by rw [← hab, habN], by rw [← hevs, hevsN],
          by rw [← hctxF, hctx]⟩
      · refine Or.inr ⟨hab1, ?_⟩
        cases f2 with
        | zero => simp [whisRun] at h2run
        | succ f2p =>
          rw [whisRun] at h2run
          have hres : whisProcessItem g ⟨k, task, .RESUME⟩ ctx1 =
              (resumeEvs k task, ctx1, [], false) := rfl
          rw [hres] at h2run
          simp only [Bool.false_eq_true, if_false, List.nil_append] at h2run
          rcases hr3 : whisRun g f2p rest ctx1 with _ | res3
          · rw [hr3] at h2run
            exact absurd h2run (by simp)
          · obtain ⟨evsR, ctxR, abR⟩ := res3
            rw [hr3] at h2run
            simp only [Option.some.injEq, Prod.mk.injEq] at h2run
            obtain ⟨hevs2, hctxN, habN⟩ := h2run
            refine ⟨f2p, evsR, ?_, ?_⟩
            · rw [hr3, hctxN, hctxF, habN, hab]
            · rw [← hevs, hevsN, ← hevs2]
              simp [List.append_assoc, resumeEvs]

/-- Witness for C2: the mock gateway splits the root task into `["a", "b"]`. -/
theorem C2_witness :
    whisWHI gSplitAB 1 "root" "" =
      ("G root", "S root", "NO", (whisWHI gSplitAB 1 "root" "").2.2.2) ∧
    whisInference gSplitAB (whisSplitPrompt "G root" "S root") (1/10) 2048
      ["###", "User:", "\n\n"] = some "[\"a\", \"b\"]" ∧
    bracketSpan "[\"a\", \"b\"]" = some "[\"a\", \"b\"]" ∧
    jsonLoads "[\"a\", \"b\"]" = some (.jarr (["a", "b"].map JValue.jstr)) ∧
    whisProcessItem gSplitAB ⟨1, "root", .MAIN⟩ "" =
      ((whisWHI gSplitAB 1 "root" "").2.2.2 ++
        [msg .status (whisTag 1 ++ " Status: COMPLEX. Splitting...") none,
          msg .card (strJoinSep "\n" ["a", "b"]) (some (whisTag 1 ++ " Split Plan"))], "",
        subNodes 1 ["a", "b"] ++ [⟨1, "root", .RESUME⟩], false) := by
  refine ⟨rfl, rfl, rfl, rfl, ?_⟩
  exact (C2_split_order gSplitAB 1 "root" "" .MAIN "G root" "S root"
    (whisWHI gSplitAB 1 "root" "").2.2.2 "[\"a\", \"b\"]" "[\"a\", \"b\"]" ["a", "b"]
    (by decide) rfl rfl rfl rfl).2.1

end SSESIS
